import Mathlib

/-!
Verification of the diagnostic translation engine of
crates/rust-analyzer/src/diagnostics/to_proto.rs: conversion of cargo check
JSON diagnostics into LSP diagnostics.

The Rust code is shallowly embedded: machine integers become Nat, fallible
code (including the unwrap panic in map_span_to_location_naive) becomes
Except, the HashMap of text edits becomes an association list in key
insertion order, and strings are Lean strings with character-list helpers
replacing the std library string routines so that every definition reduces
in the kernel.
-/

/-- Raw diagnostic levels of the checker output (ra_flycheck::DiagnosticLevel).
Modelled from the spec: the ra_flycheck data model is not part of the sources
under verification; its shape is taken from the spec data model and the JSON
fixtures in the test module. -/
inductive DiagnosticLevel where
  | Ice
  | Error
  | Warning
  | Note
  | Help
  | Unknown
deriving DecidableEq

/-- Suggestion applicability of a span (ra_flycheck::Applicability).
Modelled from the spec: shape taken from the spec data model. -/
inductive Applicability where
  | MachineApplicable
  | HasPlaceholders
  | MaybeIncorrect
  | Unspecified
deriving DecidableEq

mutual
/-- A raw checker span (ra_flycheck::DiagnosticSpan).
Modelled from the spec: shape taken from the spec data model and the JSON
fixtures; line/column bounds are 1-based. -/
inductive DiagnosticSpan where
  | mk
      (file_name : String)
      (line_start : Nat)
      (line_end : Nat)
      (column_start : Nat)
      (column_end : Nat)
      (is_primary : Bool)
      (label : Option String)
      (suggested_replacement : Option String)
      (suggestion_applicability : Option Applicability)
      (expansion : Option DiagnosticSpanMacroExpansion)

/-- A macro expansion record attached to a span
(ra_flycheck::DiagnosticSpanMacroExpansion): the call-site span, the name of
the expanded macro and its definition-site span.
Modelled from the spec: shape taken from the spec data model. -/
inductive DiagnosticSpanMacroExpansion where
  | mk
      (span : DiagnosticSpan)
      (macro_decl_name : String)
      (def_site_span : DiagnosticSpan)
end

/-- The file name of a span. -/
def DiagnosticSpan.file_name : DiagnosticSpan → String
  | .mk v _ _ _ _ _ _ _ _ _ => v

/-- The 1-based start line of a span. -/
def DiagnosticSpan.line_start : DiagnosticSpan → Nat
  | .mk _ v _ _ _ _ _ _ _ _ => v

/-- The 1-based end line of a span. -/
def DiagnosticSpan.line_end : DiagnosticSpan → Nat
  | .mk _ _ v _ _ _ _ _ _ _ => v

/-- The 1-based start column of a span. -/
def DiagnosticSpan.column_start : DiagnosticSpan → Nat
  | .mk _ _ _ v _ _ _ _ _ _ => v

/-- The 1-based end column of a span. -/
def DiagnosticSpan.column_end : DiagnosticSpan → Nat
  | .mk _ _ _ _ v _ _ _ _ _ => v

/-- Whether the span is a primary span. -/
def DiagnosticSpan.is_primary : DiagnosticSpan → Bool
  | .mk _ _ _ _ _ v _ _ _ _ => v

/-- The optional label of a span. -/
def DiagnosticSpan.label : DiagnosticSpan → Option String
  | .mk _ _ _ _ _ _ v _ _ _ => v

/-- The optional suggested replacement text of a span. -/
def DiagnosticSpan.suggested_replacement : DiagnosticSpan → Option String
  | .mk _ _ _ _ _ _ _ v _ _ => v

/-- The optional suggestion applicability of a span. -/
def DiagnosticSpan.suggestion_applicability : DiagnosticSpan → Option Applicability
  | .mk _ _ _ _ _ _ _ _ v _ => v

/-- The optional macro expansion record of a span. -/
def DiagnosticSpan.expansion : DiagnosticSpan → Option DiagnosticSpanMacroExpansion
  | .mk _ _ _ _ _ _ _ _ _ v => v

/-- The call-site span of a macro expansion record. -/
def DiagnosticSpanMacroExpansion.span : DiagnosticSpanMacroExpansion → DiagnosticSpan
  | .mk v _ _ => v

/-- The macro name of a macro expansion record. -/
def DiagnosticSpanMacroExpansion.macro_decl_name : DiagnosticSpanMacroExpansion → String
  | .mk _ v _ => v

/-- The definition-site span of a macro expansion record. -/
def DiagnosticSpanMacroExpansion.def_site_span : DiagnosticSpanMacroExpansion → DiagnosticSpan
  | .mk _ _ v => v

namespace ra_flycheck

/-- The optional code of a raw diagnostic (ra_flycheck::DiagnosticCode).
Modelled from the spec: shape taken from the spec data model. -/
structure DiagnosticCode where
  code : String
  explanation : Option String
deriving DecidableEq

/-- A raw checker diagnostic (ra_flycheck::Diagnostic): a recursive tree with
a message, optional code, level, spans and child diagnostics.
Modelled from the spec: shape taken from the spec data model and the JSON
fixtures in the test module. -/
inductive Diagnostic where
  | mk
      (message : String)
      (code : Option DiagnosticCode)
      (level : DiagnosticLevel)
      (spans : List DiagnosticSpan)
      (children : List Diagnostic)
      (rendered : Option String)

/-- The message of a raw diagnostic. -/
def Diagnostic.message : Diagnostic → String
  | .mk v _ _ _ _ _ => v

/-- The optional code of a raw diagnostic. -/
def Diagnostic.code : Diagnostic → Option DiagnosticCode
  | .mk _ v _ _ _ _ => v

/-- The level of a raw diagnostic. -/
def Diagnostic.level : Diagnostic → DiagnosticLevel
  | .mk _ _ v _ _ _ => v

/-- The spans of a raw diagnostic. -/
def Diagnostic.spans : Diagnostic → List DiagnosticSpan
  | .mk _ _ _ v _ _ => v

/-- The child diagnostics of a raw diagnostic. -/
def Diagnostic.children : Diagnostic → List Diagnostic
  | .mk _ _ _ _ v _ => v

/-- The optional rendered text of a raw diagnostic. -/
def Diagnostic.rendered : Diagnostic → Option String
  | .mk _ _ _ _ _ v => v

end ra_flycheck

namespace lsp_types

/-- A zero-based LSP position (lsp_types::Position). -/
structure Position where
  line : Nat
  character : Nat
deriving DecidableEq

/-- An LSP range (lsp_types::Range); endPos embeds its end field. -/
structure Range where
  start : Position
  endPos : Position
deriving DecidableEq

/-- A file URL (lsp_types::Url), embedded as its rendered string. -/
abbrev Url := String

/-- An LSP location (lsp_types::Location). -/
structure Location where
  uri : Url
  range : Range
deriving DecidableEq

/-- An LSP related-information entry (lsp_types::DiagnosticRelatedInformation). -/
structure DiagnosticRelatedInformation where
  location : Location
  message : String
deriving DecidableEq

/-- An LSP diagnostic severity (lsp_types::DiagnosticSeverity). -/
inductive DiagnosticSeverity where
  | Error
  | Warning
  | Information
  | Hint
deriving DecidableEq

/-- An LSP diagnostic tag (lsp_types::DiagnosticTag). -/
inductive DiagnosticTag where
  | Unnecessary
  | Deprecated
deriving DecidableEq

/-- An LSP code value (lsp_types::NumberOrString). -/
inductive NumberOrString where
  | number (n : Nat)
  | string (s : String)
deriving DecidableEq

/-- An LSP text edit (lsp_types::TextEdit). -/
structure TextEdit where
  range : Range
  newText : String
deriving DecidableEq

/-- An LSP diagnostic (lsp_types::Diagnostic), restricted to the fields the
translation populates. -/
structure Diagnostic where
  range : Range
  severity : Option DiagnosticSeverity
  code : Option NumberOrString
  source : Option String
  message : String
  related_information : Option (List DiagnosticRelatedInformation)
  tags : Option (List DiagnosticTag)
deriving DecidableEq

end lsp_types

namespace lsp_ext

/-- A snippet workspace edit (lsp_ext::SnippetWorkspaceEdit); the HashMap of
changes is embedded as an association list in key insertion order, and the
document_changes field (always None in this translation) as Option Unit. -/
structure SnippetWorkspaceEdit where
  changes : Option (List (lsp_types.Url × List lsp_types.TextEdit))
  document_changes : Option Unit
deriving DecidableEq

/-- A code action (lsp_ext::CodeAction); the command field (always None in
this translation) is embedded as Option Unit. -/
structure CodeAction where
  title : String
  id : Option String
  group : Option String
  kind : Option String
  edit : Option SnippetWorkspaceEdit
  command : Option Unit
deriving DecidableEq

end lsp_ext

/-- Character-list helper: whether a file name starts with the character '<'
(the starts_with part of is_from_macro). -/
def starts_with_lt : List Char → Bool
  | '<' :: _ => true
  | _ => false

/-- Character-list helper: whether a file name ends with the character '>'
(the ends_with part of is_from_macro). -/
def ends_with_gt : List Char → Bool
  | [] => false
  | [c] => c = '>'
  | _ :: c :: cs => ends_with_gt (c :: cs)

/-- is_from_macro: a file name denotes a synthetic macro frame when it starts
with the character '<' and ends with the character '>'. -/
def is_from_macro_file (file_name : String) : Bool :=
  starts_with_lt file_name.data && ends_with_gt file_name.data

/-- PathBuf::push: joining the workspace root with a span file name; pushing
an absolute path replaces the base path. Paths are embedded as their rendered
strings; a path is absolute when it starts with a slash. -/
def path_push (base child : String) : String :=
  if child.data.head? = some '/' then child
  else if base.data.getLast? = some '/' then base ++ child
  else base ++ "/" ++ child

/-- Path::components().any(Prefix::Disk / Prefix::VerbatimDisk): whether the
path begins with a Windows drive component (a drive letter and a colon, or
the verbatim form with four leading marks). -/
def component_has_windows_drive (path : String) : Bool :=
  match path.data with
  | c :: ':' :: _ => c.isAlpha
  | '\\' :: '\\' :: '?' :: '\\' :: c :: ':' :: _ => c.isAlpha
  | _ => false

/-- Url::from_file_path: builds a file URL from a path; fails when the path
is not absolute (neither slash-rooted nor drive-rooted). The URL is embedded
as the scheme followed by the path string. -/
def Url.from_file_path (path : String) : Except Unit lsp_types.Url :=
  if path.data.head? = some '/' ∨ component_has_windows_drive path then
    .ok ("file://" ++ path)
  else
    .error ()

/-- str::to_ascii_lowercase: lowercases the ASCII uppercase characters of a
string. -/
def ascii_lowercase (s : String) : String :=
  String.mk (s.data.map fun c => if c.isUpper then c.toLower else c)

/-- Character-list helper for rsplitn(2, consed colon): splits a reversed
character list at its first colon, returning the parts before and after that
colon (in the reversed list), or none when the list has no colon. -/
def break_at_colon : List Char → Option (List Char × List Char)
  | [] => none
  | c :: cs =>
    if c = ':' then some ([], cs)
    else
      match break_at_colon cs with
      | some (a, b) => some (c :: a, b)
      | none => none

/-- str::rsplitn(2, colon char): splits a string at its last colon into the
suffix after it and the prefix before it (in that order, following rsplitn),
or returns the whole string when it has no colon. -/
def rsplitn_two_colon (s : String) : List String :=
  match break_at_colon s.data.reverse with
  | none => [s]
  | some (after_rev, before_rev) => [String.mk after_rev.reverse, String.mk before_rev.reverse]

/-- url_from_path_with_drive_lowercasing: returns a URL from a given path,
lowercasing the drive letter when the path has a Windows drive component. The
unrepresentable-path failure of Url::from_file_path is surfaced as an Except
error carrying the formatted message. -/
def url_from_path_with_drive_lowercasing (path : String) : Except String lsp_types.Url :=
  if component_has_windows_drive path then
    match Url.from_file_path path with
    | .error _ => .error ("cannot convert path to url: " ++ path)
    | .ok url_original =>
      match rsplitn_two_colon url_original with
      | [_] => .ok url_original
      | drive :: rest :: _ =>
        .ok (ascii_lowercase rest ++ ":" ++ drive)
      | [] => .ok url_original
  else
    match Url.from_file_path path with
    | .error _ => .error ("cannot convert path to url: " ++ path)
    | .ok url => .ok url

/-- map_level_to_severity: converts a Rust level to an LSP severity. -/
def map_level_to_severity (val : DiagnosticLevel) : Option lsp_types.DiagnosticSeverity :=
  match val with
  | .Ice => some .Error
  | .Error => some .Error
  | .Warning => some .Warning
  | .Note => some .Information
  | .Help => some .Hint
  | .Unknown => none

/-- map_span_to_location_naive: converts a Rust span to an LSP location by
joining the workspace root with the span file name and subtracting 1 from
each 1-based line/column bound. The unwrap of the URL conversion is embedded
as error propagation. -/
def map_span_to_location_naive (span : DiagnosticSpan) (workspace_root : String) :
    Except String lsp_types.Location :=
  let file_name := path_push workspace_root span.file_name
  match url_from_path_with_drive_lowercasing file_name with
  | .error e => .error e
  | .ok uri =>
    .ok { uri,
          range := { start := { line := span.line_start - 1, character := span.column_start - 1 },
                     endPos := { line := span.line_end - 1, character := span.column_end - 1 } } }

mutual
/-- map_macro_span_to_location: converts a Rust macro span to an LSP location
recursively: when the call-site span is not from a macro its resolved
location is the answer, otherwise the walk continues into the call-site
span's own expansion, returning none when the chain is exhausted. -/
def map_macro_span_to_location (span_macro_expansion : DiagnosticSpanMacroExpansion)
    (workspace_root : String) : Except String (Option lsp_types.Location) :=
  match span_macro_expansion with
  | .mk sp _ _ =>
    match sp with
    | .mk file_name ls le cs ce ip lab sr sa exp =>
      if ¬ is_from_macro_file file_name then
        match map_span_to_location (.mk file_name ls le cs ce ip lab sr sa exp) workspace_root with
        | .error e => .error e
        | .ok loc => .ok (some loc)
      else
        match exp with
        | some expansion => map_macro_span_to_location expansion workspace_root
        | none => .ok none

/-- map_span_to_location: converts a Rust span to an LSP location, resolving
the macro expansion site when present and falling back to the naive location
otherwise. -/
def map_span_to_location (span : DiagnosticSpan) (workspace_root : String) :
    Except String lsp_types.Location :=
  match span with
  | .mk file_name ls le cs ce ip lab sr sa exp =>
    match exp with
    | some expansion =>
      match map_macro_span_to_location expansion workspace_root with
      | .error e => .error e
      | .ok (some macro_range) => .ok macro_range
      | .ok none => map_span_to_location_naive (.mk file_name ls le cs ce ip lab sr sa exp) workspace_root
    | none => map_span_to_location_naive (.mk file_name ls le cs ce ip lab sr sa exp) workspace_root
end

/-- map_secondary_span_to_related: converts a labelled secondary span to an
LSP related information entry; an unlabelled span yields none without its
location ever being resolved. -/
def map_secondary_span_to_related (span : DiagnosticSpan) (workspace_root : String) :
    Except String (Option lsp_types.DiagnosticRelatedInformation) :=
  match span.label with
  | none => .ok none
  | some message =>
    match map_span_to_location span workspace_root with
    | .error e => .error e
    | .ok location => .ok (some { location, message })

/-- is_unused_or_unnecessary: whether the diagnostic code (the original,
unsplit code string) belongs to the fixed unused/unnecessary set. -/
def is_unused_or_unnecessary (rd : ra_flycheck.Diagnostic) : Bool :=
  match rd.code with
  | some code =>
    code.code = "dead_code" ∨ code.code = "unknown_lints" ∨ code.code = "unreachable_code" ∨
      code.code = "unused_attributes" ∨ code.code = "unused_imports" ∨
      code.code = "unused_macros" ∨ code.code = "unused_variables"
  | none => false

/-- is_deprecated: whether the diagnostic code (the original, unsplit code
string) equals the deprecated lint name. -/
def is_deprecated (rd : ra_flycheck.Diagnostic) : Bool :=
  match rd.code with
  | some code => code.code = "deprecated"
  | none => false

/-- The three-way classification of a child diagnostic
(MappedRustChildDiagnostic). -/
inductive MappedRustChildDiagnostic where
  | Related (related : lsp_types.DiagnosticRelatedInformation)
  | SuggestedFix (action : lsp_ext.CodeAction)
  | MessageLine (line : String)
deriving DecidableEq

/-- HashMap::entry(uri).or_default().push(edit) on the edit map, embedded on
an association list: the edit is appended to the list of its key when the key
is present, and a new singleton entry is appended otherwise. -/
def insert_edit (edit_map : List (lsp_types.Url × List lsp_types.TextEdit))
    (uri : lsp_types.Url) (edit : lsp_types.TextEdit) :
    List (lsp_types.Url × List lsp_types.TextEdit) :=
  match edit_map with
  | [] => [(uri, [edit])]
  | (k, es) :: rest =>
    if k = uri then (k, es ++ [edit]) :: rest
    else (k, es) :: insert_edit rest uri edit

/-- HashMap lookup on the embedded edit map, returning the edit list of a key
(empty when absent). -/
def assoc_edits (edit_map : List (lsp_types.Url × List lsp_types.TextEdit))
    (uri : lsp_types.Url) : List lsp_types.TextEdit :=
  match edit_map with
  | [] => []
  | (k, es) :: rest => if k = uri then es else assoc_edits rest uri

/-- The loop of map_rust_child_diagnostic over the primary spans: for each
span carrying both a MachineApplicable applicability and a non-absent
suggested replacement, resolve its location and record one text replacement
under its file URL. -/
def collect_edits (spans : List DiagnosticSpan) (workspace_root : String)
    (edit_map : List (lsp_types.Url × List lsp_types.TextEdit)) :
    Except String (List (lsp_types.Url × List lsp_types.TextEdit)) :=
  match spans with
  | [] => .ok edit_map
  | span :: rest =>
    match span.suggestion_applicability, span.suggested_replacement with
    | some .MachineApplicable, some suggested_replacement =>
      match map_span_to_location span workspace_root with
      | .error e => .error e
      | .ok location =>
        collect_edits rest workspace_root
          (insert_edit edit_map location.uri { range := location.range, newText := suggested_replacement })
    | _, _ => collect_edits rest workspace_root edit_map

/-- map_rust_child_diagnostic: classifies a child diagnostic as a message
line (no primary span), a suggested fix (some primary span with a
MachineApplicable non-absent replacement), or related information (at the
first primary span's location otherwise). Resolution failures (the embedded
panics) propagate as errors. -/
def map_rust_child_diagnostic (rd : ra_flycheck.Diagnostic) (workspace_root : String) :
    Except String MappedRustChildDiagnostic :=
  match rd.spans.filter (fun s => s.is_primary) with
  | [] => .ok (.MessageLine rd.message)
  | span0 :: rest =>
    match collect_edits (span0 :: rest) workspace_root [] with
    | .error e => .error e
    | .ok edit_map =>
      if edit_map.isEmpty then
        match map_span_to_location span0 workspace_root with
        | .error e => .error e
        | .ok location => .ok (.Related { location, message := rd.message })
      else
        .ok (.SuggestedFix
          { title := rd.message
            id := none
            group := none
            kind := some "quickfix"
            edit := some { changes := some edit_map, document_changes := none }
            command := none })

/-- The per-root data shared by every emitted diagnostic of one translation
call: the computed severity, split code and source, accumulated message,
label-suppression state, tags and fixes. -/
structure SharedDiagnosticData where
  severity : Option lsp_types.DiagnosticSeverity
  code : Option String
  source : String
  message : String
  needs_primary_span_label : Bool
  tags : List lsp_types.DiagnosticTag
  fixes : List lsp_ext.CodeAction
deriving DecidableEq

/-- The per-primary-span message of the emission loop: the accumulated
message, extended with the span label on a new line when the suppression
flag is not set and the span has a label. -/
def message_with_label (base : String) (needs_primary_span_label : Bool)
    (span : DiagnosticSpan) : String :=
  if needs_primary_span_label then
    match span.label with
    | some primary_span_label => base ++ "\n" ++ primary_span_label
    | none => base
  else base

/-- The condition under which the emission loop appends the macro-origin
related-information entry for a primary span: the span's own file is not a
synthetic macro frame yet the span carries expansion info. -/
def macro_origin_condition (span : DiagnosticSpan) : Bool :=
  !is_from_macro_file span.file_name && span.expansion.isSome

/-- One translated diagnostic (MappedRustDiagnostic): the resolved primary
location, the LSP diagnostic, and the quick-fix code actions. -/
structure MappedRustDiagnostic where
  location : lsp_types.Location
  diagnostic : lsp_types.Diagnostic
  fixes : List lsp_ext.CodeAction
deriving DecidableEq

/-- The per-entry tags field of the emitted diagnostic: omitted entirely when
the tag list is empty. -/
def tags_option (tags : List lsp_types.DiagnosticTag) : Option (List lsp_types.DiagnosticTag) :=
  if tags.isEmpty then none else some tags

/-- The per-entry related-information field of the emitted diagnostic:
omitted entirely when the list is empty. -/
def related_option (related_information : List lsp_types.DiagnosticRelatedInformation) :
    Option (List lsp_types.DiagnosticRelatedInformation) :=
  if related_information.isEmpty then none else some related_information

/-- The macro-origin step of the emission loop: when the macro-origin
condition holds for the primary span, its naive (unresolved) location is
appended to the shared related-information list as the macro-origin
breadcrumb; otherwise the list is unchanged. -/
def push_macro_origin (span : DiagnosticSpan) (workspace_root : String)
    (related_information : List lsp_types.DiagnosticRelatedInformation) :
    Except String (List lsp_types.DiagnosticRelatedInformation) :=
  if macro_origin_condition span then
    match map_span_to_location_naive span workspace_root with
    | .error e => .error e
    | .ok def_loc =>
      .ok (related_information ++
        [{ location := def_loc, message := "Error originated from macro here" }])
  else .ok related_information

/-- The final loop of map_rust_diagnostic_to_lsp over the primary spans:
emits one mapped diagnostic per span, resolving its location, appending the
optional label suffix, and pushing the macro-origin related-information entry
into the shared related-information list (which therefore also reaches all
later spans). -/
def emit_per_primary_span (spans : List DiagnosticSpan) (workspace_root : String)
    (shared : SharedDiagnosticData)
    (related_information : List lsp_types.DiagnosticRelatedInformation) :
    Except String (List MappedRustDiagnostic) :=
  match spans with
  | [] => .ok []
  | primary_span :: rest =>
    match map_span_to_location primary_span workspace_root with
    | .error e => .error e
    | .ok location =>
      let message := message_with_label shared.message shared.needs_primary_span_label primary_span
      match push_macro_origin primary_span workspace_root related_information with
      | .error e => .error e
      | .ok related_information =>
        let diagnostic : lsp_types.Diagnostic :=
          { range := location.range
            severity := shared.severity
            code := shared.code.map .string
            source := some shared.source
            message
            related_information := related_option related_information
            tags := tags_option shared.tags }
        match emit_per_primary_span rest workspace_root shared related_information with
        | .error e => .error e
        | .ok mapped_rest =>
          .ok ({ location, diagnostic, fixes := shared.fixes } :: mapped_rest)

/-- The loop of map_rust_diagnostic_to_lsp over the secondary spans: each
labelled secondary span is resolved and appended to the related-information
list; unlabelled ones are dropped silently. -/
def collect_secondary_related (spans : List DiagnosticSpan) (workspace_root : String) :
    Except String (List lsp_types.DiagnosticRelatedInformation) :=
  match spans with
  | [] => .ok []
  | secondary_span :: rest =>
    match map_secondary_span_to_related secondary_span workspace_root with
    | .error e => .error e
    | .ok related =>
      match collect_secondary_related rest workspace_root with
      | .error e => .error e
      | .ok others =>
        match related with
        | some related => .ok (related :: others)
        | none => .ok others

/-- The loop of map_rust_diagnostic_to_lsp over the child diagnostics:
classifies each child, appending Related entries to the related-information
list, SuggestedFix actions to the fixes list, and MessageLine texts as new
lines of the accumulated message while clearing the label flag. -/
def process_children (children : List ra_flycheck.Diagnostic) (workspace_root : String)
    (acc : List lsp_types.DiagnosticRelatedInformation × List lsp_ext.CodeAction × String × Bool) :
    Except String (List lsp_types.DiagnosticRelatedInformation × List lsp_ext.CodeAction × String × Bool) :=
  match children with
  | [] => .ok acc
  | child :: rest =>
    match acc with
    | (related_information, fixes, message, needs_primary_span_label) =>
      match map_rust_child_diagnostic child workspace_root with
      | .error e => .error e
      | .ok (.Related related) =>
        process_children rest workspace_root
          (related_information ++ [related], fixes, message, needs_primary_span_label)
      | .ok (.SuggestedFix code_action) =>
        process_children rest workspace_root
          (related_information, fixes ++ [code_action], message, needs_primary_span_label)
      | .ok (.MessageLine message_line) =>
        process_children rest workspace_root
          (related_information, fixes, message ++ "\n" ++ message_line, false)

/-- The severity computed by map_rust_diagnostic_to_lsp: the level mapping,
overridden to Hint when the unused/unnecessary check fires (the check runs
after the level mapping). -/
def diagnostic_severity (rd : ra_flycheck.Diagnostic) : Option lsp_types.DiagnosticSeverity :=
  if is_unused_or_unnecessary rd then some .Hint else map_level_to_severity rd.level

/-- The tags computed by map_rust_diagnostic_to_lsp: Unnecessary when the
unused/unnecessary check fires, then Deprecated when the deprecated check
fires, in push order. -/
def diagnostic_tags (rd : ra_flycheck.Diagnostic) : List lsp_types.DiagnosticTag :=
  (if is_unused_or_unnecessary rd then [.Unnecessary] else []) ++
    (if is_deprecated rd then [.Deprecated] else [])

/-- Rust str::split at the two-character scope delimiter, embedded on the
character list: non-overlapping left-to-right splitting at each occurrence of
two consecutive colons, accumulating the current piece in reverse. -/
def split_scope_aux : List Char → List Char → List String
  | [], acc => [String.mk acc.reverse]
  | ':' :: ':' :: rest, acc => String.mk acc.reverse :: split_scope_aux rest []
  | c :: rest, acc => split_scope_aux rest (c :: acc)

/-- code_val.split at the scope delimiter of RFC 2103 scoped lints: the list
of pieces of the code string between occurrences of two consecutive colons. -/
def split_scope (s : String) : List String :=
  split_scope_aux s.data []

/-- The source/code determination of map_rust_diagnostic_to_lsp: the default
source is the checker name, and a code splitting into exactly two parts at
the scope delimiter is treated as a scoped lint whose first part becomes the
source and second part the code; otherwise the code is used verbatim. -/
def source_and_code (code : Option ra_flycheck.DiagnosticCode) : String × Option String :=
  match code with
  | none => ("rustc", none)
  | some code_val =>
    match split_scope code_val.code with
    | [scoped_source, scoped_code] => (scoped_source, some scoped_code)
    | _ => ("rustc", some code_val.code)

/-- map_rust_diagnostic_to_lsp: converts a Rust root diagnostic to LSP form,
flattening it into one mapped diagnostic per primary span; a diagnostic with
no primary span yields the empty list. Resolution failures (the embedded
unwrap panics) propagate as errors, so a call either yields all per-span
diagnostics or fails entirely. -/
def map_rust_diagnostic_to_lsp (rd : ra_flycheck.Diagnostic) (workspace_root : String) :
    Except String (List MappedRustDiagnostic) :=
  let primary_spans := rd.spans.filter (fun s => s.is_primary)
  if primary_spans.isEmpty then .ok []
  else
    match collect_secondary_related (rd.spans.filter (fun s => !s.is_primary)) workspace_root with
    | .error e => .error e
    | .ok secondary_related =>
      match process_children rd.children workspace_root (secondary_related, [], rd.message, true) with
      | .error e => .error e
      | .ok (related_information, fixes, message, needs_primary_span_label) =>
        emit_per_primary_span primary_spans workspace_root
          { severity := diagnostic_severity rd
            code := (source_and_code rd.code).2
            source := (source_and_code rd.code).1
            message
            needs_primary_span_label
            tags := diagnostic_tags rd
            fixes }
          related_information

theorem emit_fields {spans : List DiagnosticSpan} {workspace_root : String}
    {shared : SharedDiagnosticData} {rel : List lsp_types.DiagnosticRelatedInformation}
    {res : List MappedRustDiagnostic}
    (h : emit_per_primary_span spans workspace_root shared rel = .ok res) :
    ∀ d ∈ res, d.diagnostic.severity = shared.severity ∧
      d.diagnostic.code = shared.code.map .string ∧
      d.diagnostic.source = some shared.source ∧
      d.diagnostic.tags = tags_option shared.tags ∧
      d.fixes = shared.fixes := by
  induction spans generalizing rel res with
  | nil =>
    simp only [emit_per_primary_span, Except.ok.injEq] at h
    subst h
    simp
  | cons s rest ih =>
    rw [emit_per_primary_span] at h
    split at h
    · exact Except.noConfusion h
    · split at h
      · exact Except.noConfusion h
      · split at h
        · exact Except.noConfusion h
        · rename_i mapped_rest hrec
          simp only [Except.ok.injEq] at h
          subst h
          intro d hd
          rcases List.mem_cons.mp hd with hd | hd
          · subst hd
            exact ⟨rfl, rfl, rfl, rfl, rfl⟩
          · exact ih hrec d hd

theorem emit_in_order {spans : List DiagnosticSpan} {workspace_root : String}
    {shared : SharedDiagnosticData} {rel : List lsp_types.DiagnosticRelatedInformation}
    {res : List MappedRustDiagnostic}
    (h : emit_per_primary_span spans workspace_root shared rel = .ok res) :
    List.Forall₂ (fun span d =>
      map_span_to_location span workspace_root = .ok d.location ∧
      d.diagnostic.range = d.location.range ∧
      d.diagnostic.message =
        message_with_label shared.message shared.needs_primary_span_label span) spans res := by
  induction spans generalizing rel res with
  | nil =>
    simp only [emit_per_primary_span, Except.ok.injEq] at h
    subst h
    exact List.Forall₂.nil
  | cons s rest ih =>
    rw [emit_per_primary_span] at h
    split at h
    · exact Except.noConfusion h
    · rename_i loc hloc
      split at h
      · exact Except.noConfusion h
      · split at h
        · exact Except.noConfusion h
        · rename_i mapped_rest hrec
          simp only [Except.ok.injEq] at h
          subst h
          exact List.Forall₂.cons ⟨hloc, rfl, rfl⟩ (ih hrec)

theorem push_macro_origin_of_false {span : DiagnosticSpan} {workspace_root : String}
    {rel : List lsp_types.DiagnosticRelatedInformation}
    (hc : macro_origin_condition span = false) :
    push_macro_origin span workspace_root rel = .ok rel := by
  simp [push_macro_origin, hc]

theorem emit_related_const {spans : List DiagnosticSpan} {workspace_root : String}
    {shared : SharedDiagnosticData} {rel : List lsp_types.DiagnosticRelatedInformation}
    {res : List MappedRustDiagnostic}
    (hnb : ∀ s ∈ spans, macro_origin_condition s = false)
    (h : emit_per_primary_span spans workspace_root shared rel = .ok res) :
    ∀ d ∈ res, d.diagnostic.related_information = related_option rel := by
  induction spans generalizing rel res with
  | nil =>
    simp only [emit_per_primary_span, Except.ok.injEq] at h
    subst h
    simp
  | cons s rest ih =>
    rw [emit_per_primary_span] at h
    split at h
    · exact Except.noConfusion h
    · rw [push_macro_origin_of_false (hnb s (List.mem_cons_self s rest))] at h
      split at h
      · exact Except.noConfusion h
      · rename_i mapped_rel hrel
        injection hrel with hrel
        subst hrel
        split at h
        · exact Except.noConfusion h
        · rename_i mapped_rest hrec
          simp only [Except.ok.injEq] at h
          subst h
          intro d hd
          rcases List.mem_cons.mp hd with hd | hd
          · subst hd
            rfl
          · exact ih (fun x hx => hnb x (List.mem_cons_of_mem s hx)) hrec d hd

theorem emit_no_ok_of_failing_span {spans : List DiagnosticSpan} {workspace_root : String}
    {shared : SharedDiagnosticData} {rel : List lsp_types.DiagnosticRelatedInformation}
    {span : DiagnosticSpan} {e : String}
    (hmem : span ∈ spans) (hfail : map_span_to_location span workspace_root = .error e) :
    ∀ res, emit_per_primary_span spans workspace_root shared rel ≠ .ok res := by
  induction spans generalizing rel with
  | nil => cases hmem
  | cons s rest ih =>
    intro res h
    rw [emit_per_primary_span] at h
    rcases List.mem_cons.mp hmem with hs | hs
    · subst hs
      rw [hfail] at h
      exact Except.noConfusion h
    · split at h
      · exact Except.noConfusion h
      · split at h
        · exact Except.noConfusion h
        · split at h
          · exact Except.noConfusion h
          · rename_i mapped_rest hrec
            exact ih hs mapped_rest hrec

theorem map_lsp_ok_destruct {rd : ra_flycheck.Diagnostic} {workspace_root : String}
    {res : List MappedRustDiagnostic}
    (h : map_rust_diagnostic_to_lsp rd workspace_root = .ok res)
    (hne : (rd.spans.filter (fun s => s.is_primary)).isEmpty = false) :
    ∃ rel fixes message needs_primary_span_label,
      emit_per_primary_span (rd.spans.filter (fun s => s.is_primary)) workspace_root
        { severity := diagnostic_severity rd
          code := (source_and_code rd.code).2
          source := (source_and_code rd.code).1
          message
          needs_primary_span_label
          tags := diagnostic_tags rd
          fixes } rel = .ok res := by
  rw [map_rust_diagnostic_to_lsp] at h
  simp only [hne, Bool.false_eq_true, if_false] at h
  split at h
  · exact Except.noConfusion h
  · split at h
    · exact Except.noConfusion h
    · rename_i acc heq
      exact ⟨_, _, _, _, h⟩

theorem mapped_entry_fields {rd : ra_flycheck.Diagnostic} {workspace_root : String}
    {res : List MappedRustDiagnostic} {d : MappedRustDiagnostic}
    (hok : map_rust_diagnostic_to_lsp rd workspace_root = .ok res) (hd : d ∈ res) :
    d.diagnostic.severity = diagnostic_severity rd ∧
    d.diagnostic.code = ((source_and_code rd.code).2).map .string ∧
    d.diagnostic.source = some (source_and_code rd.code).1 ∧
    d.diagnostic.tags = tags_option (diagnostic_tags rd) := by
  by_cases hne : (rd.spans.filter (fun s => s.is_primary)).isEmpty
  · rw [map_rust_diagnostic_to_lsp] at hok
    simp only [hne, if_true] at hok
    simp only [Except.ok.injEq] at hok
    subst hok
    cases hd
  · obtain ⟨rel, fixes, message, needs, hemit⟩ :=
      map_lsp_ok_destruct hok (Bool.not_eq_true _ ▸ hne)
    obtain ⟨h1, h2, h3, h4, _⟩ := emit_fields hemit d hd
    exact ⟨h1, h2, h3, h4⟩

/-- C7: the level-to-severity mapping is total and maps Ice and Error to
Error, Warning to Warning, Note to Information, Help to Hint, and Unknown to
no severity. -/
theorem C7_level_severity_mapping :
    map_level_to_severity .Ice = some .Error ∧
    map_level_to_severity .Error = some .Error ∧
    map_level_to_severity .Warning = some .Warning ∧
    map_level_to_severity .Note = some .Information ∧
    map_level_to_severity .Help = some .Hint ∧
    map_level_to_severity .Unknown = none :=
  ⟨rfl, rfl, rfl, rfl, rfl, rfl⟩

/-- C9: the naive location converts the 1-based line/column bounds to a
zero-based range by subtracting exactly 1 from each of line_start,
column_start, line_end and column_end. -/
theorem C9_naive_range_subtracts_one (span : DiagnosticSpan) (workspace_root : String)
    (loc : lsp_types.Location)
    (h1 : 1 ≤ span.line_start) (h2 : 1 ≤ span.column_start)
    (h3 : 1 ≤ span.line_end) (h4 : 1 ≤ span.column_end)
    (h : map_span_to_location_naive span workspace_root = .ok loc) :
    loc.range =
      { start := { line := span.line_start - 1, character := span.column_start - 1 },
        endPos := { line := span.line_end - 1, character := span.column_end - 1 } } := by
  rw [map_span_to_location_naive] at h
  split at h
  · exact Except.noConfusion h
  · simp only [Except.ok.injEq] at h
    subst h
    rfl

/-- The span of the C9 witness: the primary span of the E0053 fixture, with
1-based bounds line 52, columns 5 to 48. -/
def spanC9w : DiagnosticSpan :=
  .mk "compiler/ty/list_iter.rs" 52 52 5 48 true (some "types differ in mutability") none none none

/-- The location of the C9 witness. -/
def locC9w : lsp_types.Location :=
  { uri := "file:///test/compiler/ty/list_iter.rs",
    range := { start := { line := 51, character := 4 }, endPos := { line := 51, character := 47 } } }

theorem C9_naive_range_subtracts_one_witness :
    1 ≤ spanC9w.line_start ∧ 1 ≤ spanC9w.column_start ∧
    1 ≤ spanC9w.line_end ∧ 1 ≤ spanC9w.column_end ∧
    map_span_to_location_naive spanC9w "/test" = .ok locC9w ∧
    locC9w.range =
      { start := { line := 51, character := 4 }, endPos := { line := 51, character := 47 } } :=
  ⟨by decide, by decide, by decide, by decide, rfl,
    C9_naive_range_subtracts_one spanC9w "/test" locC9w (by decide) (by decide) (by decide)
      (by decide) rfl⟩

/-- A raw diagnostic whose span list contains no primary span. -/
def no_primary_spans (rd : ra_flycheck.Diagnostic) : Prop :=
  ∀ s ∈ rd.spans, s.is_primary = false

instance (rd : ra_flycheck.Diagnostic) : Decidable (no_primary_spans rd) :=
  inferInstanceAs (Decidable (∀ s ∈ rd.spans, s.is_primary = false))

/-- C2: a raw diagnostic none of whose spans is primary translates to the
empty list (a legitimate, silent filter, not an error), whatever its
message, code, level, children and non-primary spans. -/
theorem C2_no_primary_spans_empty_output (rd : ra_flycheck.Diagnostic) (workspace_root : String)
    (h : no_primary_spans rd) :
    map_rust_diagnostic_to_lsp rd workspace_root = .ok [] := by
  have hfilter : rd.spans.filter (fun s => s.is_primary) = [] :=
    List.filter_eq_nil_iff.mpr (fun s hs => by simp [h s hs])
  rw [map_rust_diagnostic_to_lsp]
  simp [hfilter]

/-- The input of the C2 witness: an error-level diagnostic with a code, a
labelled non-primary span whose path is not even representable as a URL
under the relative workspace root, and a child with a primary span. -/
def rdC2w : ra_flycheck.Diagnostic :=
  .mk "expected 2 parameters" (some { code := "E0061", explanation := none }) .Error
    [.mk "compiler/ty/select.rs" 219 231 5 6 false (some "defined here") none none none]
    [.mk "child note" none .Note [.mk "compiler/ty/select.rs" 104 104 18 30 true none none none none] [] none]
    none

theorem C2_no_primary_spans_empty_output_witness :
    no_primary_spans rdC2w ∧
    map_rust_diagnostic_to_lsp rdC2w "rel" = .ok [] :=
  ⟨by decide, C2_no_primary_spans_empty_output rdC2w "rel" (by decide)⟩

/-- The source/code determination property of one emitted diagnostic: a code
splitting into exactly two parts at the scope delimiter yields that source
and code; any other code keeps the default source and is used verbatim; no
code keeps the default source and leaves the code absent. -/
def source_code_spec (rd : ra_flycheck.Diagnostic) (d : MappedRustDiagnostic) : Prop :=
  (∀ code_val scoped_source scoped_code, rd.code = some code_val →
      split_scope code_val.code = [scoped_source, scoped_code] →
      d.diagnostic.source = some scoped_source ∧
      d.diagnostic.code = some (.string scoped_code)) ∧
  (∀ code_val, rd.code = some code_val → (split_scope code_val.code).length ≠ 2 →
      d.diagnostic.source = some "rustc" ∧
      d.diagnostic.code = some (.string code_val.code)) ∧
  (rd.code = none →
      d.diagnostic.source = some "rustc" ∧ d.diagnostic.code = none)

/-- C8: every emitted diagnostic carries the source and code determined from
the raw code string by the scope-delimiter split: exactly two parts yield
source and code, otherwise the source stays rustc and the code is verbatim,
and an absent code keeps the default source with no output code. -/
theorem C8_scoped_code_split (rd : ra_flycheck.Diagnostic) (workspace_root : String)
    (res : List MappedRustDiagnostic) (d : MappedRustDiagnostic)
    (hok : map_rust_diagnostic_to_lsp rd workspace_root = .ok res) (hd : d ∈ res) :
    source_code_spec rd d := by
  obtain ⟨hsev, hcode, hsource, htags⟩ := mapped_entry_fields hok hd
  refine ⟨?_, ?_, ?_⟩
  · intro code_val scoped_source scoped_code hc hsplit
    rw [hsource, hcode]
    simp [source_and_code, hc, hsplit]
  · intro code_val hc hlen
    rw [hsource, hcode]
    rcases hs : split_scope code_val.code with _ | ⟨a, _ | ⟨b, _ | _⟩⟩ <;>
      simp_all [source_and_code, hc]
  · intro hc
    rw [hsource, hcode]
    simp [source_and_code, hc]

/-- The diagnostic of the C8 witness: the clippy scoped-lint fixture. -/
def rdC8w : ra_flycheck.Diagnostic :=
  .mk "this argument is passed by reference"
    (some { code := "clippy::trivially_copy_pass_by_ref", explanation := none }) .Warning
    [.mk "compiler/mir/tagset.rs" 42 42 24 29 true none none none none] [] none

/-- The single output entry of the C8 witness. -/
def dC8w : MappedRustDiagnostic :=
  { location :=
      { uri := "file:///test/compiler/mir/tagset.rs",
        range := { start := { line := 41, character := 23 }, endPos := { line := 41, character := 28 } } }
    diagnostic :=
      { range := { start := { line := 41, character := 23 }, endPos := { line := 41, character := 28 } }
        severity := some .Warning
        code := some (.string "trivially_copy_pass_by_ref")
        source := some "clippy"
        message := "this argument is passed by reference"
        related_information := none
        tags := none }
    fixes := [] }

theorem C8_scoped_code_split_witness :
    map_rust_diagnostic_to_lsp rdC8w "/test" = .ok [dC8w] ∧ source_code_spec rdC8w dC8w :=
  ⟨rfl, C8_scoped_code_split rdC8w "/test" [dC8w] dC8w rfl (List.mem_singleton.mpr rfl)⟩

/-- The fixed unused/unnecessary code set of is_unused_or_unnecessary. -/
def unused_code_set : List String :=
  ["dead_code", "unknown_lints", "unreachable_code", "unused_attributes",
   "unused_imports", "unused_macros", "unused_variables"]

theorem is_unused_of_mem {rd : ra_flycheck.Diagnostic} {code_val : ra_flycheck.DiagnosticCode}
    (hc : rd.code = some code_val) (hmem : code_val.code ∈ unused_code_set) :
    is_unused_or_unnecessary rd = true := by
  rw [is_unused_or_unnecessary, hc]
  simp only [unused_code_set, List.mem_cons, List.mem_singleton, List.not_mem_nil, or_false] at hmem
  simp only [decide_eq_true_eq]
  tauto

theorem not_unused_of_not_mem {rd : ra_flycheck.Diagnostic}
    {code_val : ra_flycheck.DiagnosticCode}
    (hc : rd.code = some code_val) (hmem : code_val.code ∉ unused_code_set) :
    is_unused_or_unnecessary rd = false := by
  rw [is_unused_or_unnecessary, hc]
  simp only [unused_code_set, List.mem_cons, List.not_mem_nil, or_false, not_or] at hmem
  simp only [decide_eq_false_iff_not]
  tauto

/-- The severity/tag override property of one emitted diagnostic: a code in
the unused set forces severity Hint and the Unnecessary tag whatever the
level; a deprecated code adds the Deprecated tag with the severity still the
plain level mapping; an absent code leaves the level mapping and no tags. -/
def severity_tags_spec (rd : ra_flycheck.Diagnostic) (d : MappedRustDiagnostic) : Prop :=
  (∀ code_val, rd.code = some code_val → code_val.code ∈ unused_code_set →
      d.diagnostic.severity = some .Hint ∧
      lsp_types.DiagnosticTag.Unnecessary ∈ d.diagnostic.tags.getD []) ∧
  (∀ code_val, rd.code = some code_val → code_val.code = "deprecated" →
      lsp_types.DiagnosticTag.Deprecated ∈ d.diagnostic.tags.getD [] ∧
      d.diagnostic.severity = map_level_to_severity rd.level) ∧
  (rd.code = none →
      d.diagnostic.severity = map_level_to_severity rd.level ∧ d.diagnostic.tags = none)

/-- C6: every emitted diagnostic obeys the unused/unnecessary override (Hint
severity and Unnecessary tag for codes in the fixed set, overriding the
level mapping), the independent deprecated tag (severity unaffected), and
neither check when the diagnostic has no code. -/
theorem C6_unused_and_deprecated_checks (rd : ra_flycheck.Diagnostic) (workspace_root : String)
    (res : List MappedRustDiagnostic) (d : MappedRustDiagnostic)
    (hok : map_rust_diagnostic_to_lsp rd workspace_root = .ok res) (hd : d ∈ res) :
    severity_tags_spec rd d := by
  obtain ⟨hsev, hcode, hsource, htags⟩ := mapped_entry_fields hok hd
  refine ⟨?_, ?_, ?_⟩
  · intro code_val hc hmem
    have hu : is_unused_or_unnecessary rd = true := is_unused_of_mem hc hmem
    constructor
    · rw [hsev, diagnostic_severity, hu]
      simp
    · rw [htags, diagnostic_tags, hu]
      simp [tags_option]
  · intro code_val hc hdep
    have hu : is_unused_or_unnecessary rd = false := by
      refine not_unused_of_not_mem hc ?_
      rw [hdep]
      decide
    have hdp : is_deprecated rd = true := by
      rw [is_deprecated, hc]
      simp [hdep]
    constructor
    · rw [htags, diagnostic_tags, hu, hdp]
      simp [tags_option]
    · rw [hsev, diagnostic_severity, hu]
      simp
  · intro hc
    have hu : is_unused_or_unnecessary rd = false := by
      rw [is_unused_or_unnecessary, hc]
    have hdp : is_deprecated rd = false := by
      rw [is_deprecated, hc]
    constructor
    · rw [hsev, diagnostic_severity, hu]
      simp
    · rw [htags, diagnostic_tags, hu, hdp]
      simp [tags_option]

/-- The diagnostic of the C6 witness: the unused_variables fixture, at
Warning level. -/
def rdC6w : ra_flycheck.Diagnostic :=
  .mk "unused variable: foo" (some { code := "unused_variables", explanation := none }) .Warning
    [.mk "driver/subcommand/repl.rs" 291 291 9 12 true none none none none] [] none

/-- The single output entry of the C6 witness: severity forced to Hint and
tag Unnecessary present although the level is Warning. -/
def dC6w : MappedRustDiagnostic :=
  { location :=
      { uri := "file:///test/driver/subcommand/repl.rs",
        range := { start := { line := 290, character := 8 }, endPos := { line := 290, character := 11 } } }
    diagnostic :=
      { range := { start := { line := 290, character := 8 }, endPos := { line := 290, character := 11 } }
        severity := some .Hint
        code := some (.string "unused_variables")
        source := some "rustc"
        message := "unused variable: foo"
        related_information := none
        tags := some [.Unnecessary] }
    fixes := [] }

theorem C6_unused_and_deprecated_checks_witness :
    map_rust_diagnostic_to_lsp rdC6w "/test" = .ok [dC6w] ∧ severity_tags_spec rdC6w dC6w :=
  ⟨rfl, C6_unused_and_deprecated_checks rdC6w "/test" [dC6w] dC6w rfl (List.mem_singleton.mpr rfl)⟩

/-- C10: the unused/unnecessary and deprecated checks compare the original,
unsplit code string, so a scoped code (one splitting into two parts at the
scope delimiter, such as a clippy-prefixed lint) triggers neither the
severity override nor any tag, even when its unscoped part alone would. -/
theorem C10_checks_use_unsplit_code (rd : ra_flycheck.Diagnostic) (workspace_root : String)
    (res : List MappedRustDiagnostic) (d : MappedRustDiagnostic)
    (code_val : ra_flycheck.DiagnosticCode)
    (hc : rd.code = some code_val)
    (hlen : (split_scope code_val.code).length = 2)
    (hok : map_rust_diagnostic_to_lsp rd workspace_root = .ok res) (hd : d ∈ res) :
    d.diagnostic.severity = map_level_to_severity rd.level ∧ d.diagnostic.tags = none := by
  obtain ⟨hsev, hcode, hsource, htags⟩ := mapped_entry_fields hok hd
  have hu : is_unused_or_unnecessary rd = false := by
    refine not_unused_of_not_mem hc ?_
    intro hmem
    simp only [unused_code_set, List.mem_cons, List.not_mem_nil, or_false] at hmem
    rcases hmem with h | h | h | h | h | h | h <;>
      (rw [h] at hlen; exact absurd hlen (by decide))
  have hdp : is_deprecated rd = false := by
    rw [is_deprecated, hc]
    simp only [decide_eq_false_iff_not]
    intro hdep
    rw [hdep] at hlen
    exact absurd hlen (by decide)
  constructor
  · rw [hsev, diagnostic_severity, hu]
    simp
  · rw [htags, diagnostic_tags, hu, hdp]
    simp [tags_option]

/-- The diagnostic of the C10 witness: the scoped code clippy::dead_code at
Warning level, whose unscoped part alone is in the unused set. -/
def rdC10w : ra_flycheck.Diagnostic :=
  .mk "scoped dead code" (some { code := "clippy::dead_code", explanation := none }) .Warning
    [.mk "src/main.rs" 4 4 5 6 true none none none none] [] none

/-- The single output entry of the C10 witness: Warning severity kept and no
tags despite the dead_code suffix. -/
def dC10w : MappedRustDiagnostic :=
  { location :=
      { uri := "file:///test/src/main.rs",
        range := { start := { line := 3, character := 4 }, endPos := { line := 3, character := 5 } } }
    diagnostic :=
      { range := { start := { line := 3, character := 4 }, endPos := { line := 3, character := 5 } }
        severity := some .Warning
        code := some (.string "dead_code")
        source := some "clippy"
        message := "scoped dead code"
        related_information := none
        tags := none }
    fixes := [] }

theorem C10_checks_use_unsplit_code_witness :
    rdC10w.code = some { code := "clippy::dead_code", explanation := none } ∧
    (split_scope "clippy::dead_code").length = 2 ∧
    map_rust_diagnostic_to_lsp rdC10w "/test" = .ok [dC10w] ∧
    dC10w.diagnostic.severity = map_level_to_severity rdC10w.level ∧
    dC10w.diagnostic.tags = none :=
  ⟨rfl, by decide, rfl,
    C10_checks_use_unsplit_code rdC10w "/test" [dC10w] dC10w
      { code := "clippy::dead_code", explanation := none } rfl (by decide) rfl
      (List.mem_singleton.mpr rfl)⟩

/-- The two-primary-span counterexample input for the per-entry sharing
claim: both primary spans sit at real (non-synthetic) files and carry
expansion info resolving to a real call site, so each triggers the
macro-origin breadcrumb push into the shared related-information list. -/
def rdC1ce : ra_flycheck.Diagnostic :=
  .mk "mismatched types" none .Error
    [.mk "a.rs" 3 3 1 2 true none none none
       (some (.mk (.mk "c.rs" 1 1 1 2 false none none none none) "m"
         (.mk "c.rs" 1 1 1 2 false none none none none))),
     .mk "b.rs" 4 4 1 2 true none none none
       (some (.mk (.mk "c.rs" 1 1 1 2 false none none none none) "m"
         (.mk "c.rs" 1 1 1 2 false none none none none)))]
    [] none

/-- C1 counterexample: on rdC1ce the two emitted entries do not have
identical related-information: the first carries one macro-origin entry and
the second two, because the breadcrumb pushed while emitting the first
primary span stays in the shared list and the second span pushes another.
This refutes the claim that all entries share identical related-information,
differing only in location and label suffix. -/
theorem C1_counterexample :
    ((map_rust_diagnostic_to_lsp rdC1ce "/t").toOption.getD []).map
        (fun d => (d.diagnostic.related_information.getD []).length) = [1, 2] ∧
    (1 : Nat) ≠ 2 :=
  ⟨rfl, by decide⟩

/-- All emitted entries share the same severity, code, source, tags and
fixes. -/
def entries_share_output_fields (res : List MappedRustDiagnostic) : Prop :=
  ∀ d ∈ res, ∀ e ∈ res,
    d.diagnostic.severity = e.diagnostic.severity ∧
    d.diagnostic.code = e.diagnostic.code ∧
    d.diagnostic.source = e.diagnostic.source ∧
    d.diagnostic.tags = e.diagnostic.tags ∧
    d.fixes = e.fixes

/-- The emitted entries correspond one-to-one, in list order, to the given
spans: each entry's location is the resolution of its span, and its range is
that location's range. -/
def entries_located_in_order (workspace_root : String) (spans : List DiagnosticSpan)
    (res : List MappedRustDiagnostic) : Prop :=
  List.Forall₂ (fun span d =>
    map_span_to_location span workspace_root = .ok d.location ∧
    d.diagnostic.range = d.location.range) spans res

/-- The emitted entries share one base message, to which each entry appends
at most the label of its own span (under one shared suppression flag). -/
def entries_message_label_suffix (spans : List DiagnosticSpan)
    (res : List MappedRustDiagnostic) : Prop :=
  ∃ base needs_primary_span_label,
    List.Forall₂ (fun span d =>
      d.diagnostic.message = message_with_label base needs_primary_span_label span) spans res

/-- All emitted entries carry the same related-information. -/
def entries_share_related (res : List MappedRustDiagnostic) : Prop :=
  ∀ d ∈ res, ∀ e ∈ res,
    d.diagnostic.related_information = e.diagnostic.related_information

/-- No primary span of the diagnostic triggers the macro-origin breadcrumb
(that is, no primary span has both a non-synthetic file name and expansion
info). -/
def no_macro_origin_breadcrumbs (rd : ra_flycheck.Diagnostic) : Prop :=
  ∀ s ∈ rd.spans, s.is_primary = true → macro_origin_condition s = false

instance (rd : ra_flycheck.Diagnostic) : Decidable (no_macro_origin_breadcrumbs rd) :=
  inferInstanceAs (Decidable (∀ s ∈ rd.spans, s.is_primary = true → macro_origin_condition s = false))

/-- C1 amended: a diagnostic with N primary spans yields exactly N entries,
one per primary span in list order, sharing message (up to the optional
per-span label suffix), severity, code, source, tags and fixes; the entries
also share identical related-information provided no primary span triggers
the macro-origin breadcrumb, which otherwise accumulates in the shared list
so that later entries extend earlier ones. -/
theorem C1_one_entry_per_primary_span (rd : ra_flycheck.Diagnostic) (workspace_root : String)
    (res : List MappedRustDiagnostic)
    (hok : map_rust_diagnostic_to_lsp rd workspace_root = .ok res) :
    res.length = (rd.spans.filter (fun s => s.is_primary)).length ∧
    entries_located_in_order workspace_root (rd.spans.filter (fun s => s.is_primary)) res ∧
    entries_message_label_suffix (rd.spans.filter (fun s => s.is_primary)) res ∧
    entries_share_output_fields res ∧
    (no_macro_origin_breadcrumbs rd → entries_share_related res) := by
  by_cases hne : (rd.spans.filter (fun s => s.is_primary)).isEmpty
  · rw [map_rust_diagnostic_to_lsp] at hok
    simp only [hne, if_true, Except.ok.injEq] at hok
    subst hok
    rw [List.isEmpty_iff] at hne
    rw [hne]
    refine ⟨rfl, List.Forall₂.nil, ⟨"", true, List.Forall₂.nil⟩, ?_, ?_⟩
    · intro d hd
      cases hd
    · intro _ d hd
      cases hd
  · obtain ⟨rel, fixes, message, needs, hemit⟩ :=
      map_lsp_ok_destruct hok (Bool.not_eq_true _ ▸ hne)
    have horder := emit_in_order hemit
    refine ⟨(List.Forall₂.length_eq horder).symm, ?_, ?_, ?_, ?_⟩
    · exact horder.imp (fun _ _ h => ⟨h.1, h.2.1⟩)
    · exact ⟨message, needs, horder.imp (fun _ _ h => h.2.2)⟩
    · intro d hd e he
      obtain ⟨d1, d2, d3, d4, d5⟩ := emit_fields hemit d hd
      obtain ⟨e1, e2, e3, e4, e5⟩ := emit_fields hemit e he
      exact ⟨d1.trans e1.symm, d2.trans e2.symm, d3.trans e3.symm,
        d4.trans e4.symm, d5.trans e5.symm⟩
    · intro hnb d hd e he
      have hcond : ∀ s ∈ rd.spans.filter (fun s => s.is_primary), macro_origin_condition s = false := by
        intro s hs
        rw [List.mem_filter] at hs
        exact hnb s hs.1 hs.2
      have hd1 := emit_related_const hcond hemit d hd
      have he1 := emit_related_const hcond hemit e he
      exact hd1.trans he1.symm

/-- The diagnostic of the C1 witness: two primary spans without expansion
info (one labelled), one labelled secondary span and one spanless child. -/
def rdC1w : ra_flycheck.Diagnostic :=
  .mk "mismatched types" (some { code := "E0308", explanation := none }) .Error
    [.mk "a.rs" 1 1 1 2 true (some "expected usize") none none none,
     .mk "b.rs" 2 2 3 4 true none none none none,
     .mk "c.rs" 5 5 1 2 false (some "defined here") none none none]
    [.mk "extra explanation" none .Note [] [] none] none

/-- The output list of the C1 witness. -/
def resC1w : List MappedRustDiagnostic :=
  (map_rust_diagnostic_to_lsp rdC1w "/t").toOption.getD []

theorem C1_one_entry_per_primary_span_witness :
    map_rust_diagnostic_to_lsp rdC1w "/t" = .ok resC1w ∧
    resC1w.length = (rdC1w.spans.filter (fun s => s.is_primary)).length ∧
    entries_located_in_order "/t" (rdC1w.spans.filter (fun s => s.is_primary)) resC1w ∧
    entries_message_label_suffix (rdC1w.spans.filter (fun s => s.is_primary)) resC1w ∧
    entries_share_output_fields resC1w ∧
    no_macro_origin_breadcrumbs rdC1w ∧
    entries_share_related resC1w := by
  have h := C1_one_entry_per_primary_span rdC1w "/t" resC1w rfl
  exact ⟨rfl, h.1, h.2.1, h.2.2.1, h.2.2.2.1, by decide, h.2.2.2.2 (by decide)⟩

/-- The counterexample input for the path-failure claim: the primary span
names an absolute file (push replaces the relative workspace root, so its
URL builds fine), while the non-primary span's path joins to a relative path
that cannot become a file URL; that span is unlabelled, so its location is
never resolved. -/
def rdC3ce : ra_flycheck.Diagnostic :=
  .mk "mismatched types" none .Error
    [.mk "/a.rs" 1 1 1 2 true none none none none,
     .mk "b.rs" 1 1 1 2 false none none none none]
    [] none

/-- The successful output of the C3 counterexample. -/
def dC3ce : MappedRustDiagnostic :=
  { location :=
      { uri := "file:///a.rs",
        range := { start := { line := 0, character := 0 }, endPos := { line := 0, character := 1 } } }
    diagnostic :=
      { range := { start := { line := 0, character := 0 }, endPos := { line := 0, character := 1 } }
        severity := some .Error
        code := none
        source := some "rustc"
        message := "mismatched types"
        related_information := none
        tags := none }
    fixes := [] }

/-- C3 counterexample: rdC3ce contains a span (the non-primary one) whose
path, joined with the workspace root, cannot be expressed as a file URL, yet
the translation succeeds, because the span is unlabelled and its location is
never resolved. This refutes the claim that every input containing some span
with an unrepresentable path makes the translation fail. -/
theorem C3_counterexample :
    url_from_path_with_drive_lowercasing (path_push "rel" "b.rs") =
      .error "cannot convert path to url: rel/b.rs" ∧
    map_rust_diagnostic_to_lsp rdC3ce "rel" = .ok [dC3ce] :=
  ⟨rfl, rfl⟩

/-- The translation of the diagnostic fails with a propagated error (so no
output list, partial or otherwise, is returned). -/
def translation_fails (rd : ra_flycheck.Diagnostic) (workspace_root : String) : Prop :=
  ∃ err, map_rust_diagnostic_to_lsp rd workspace_root = .error err

/-- C3 amended: when the location of a primary span cannot be resolved to a
file URL, the translation of the whole diagnostic fails with the error
propagated to the caller; no partial output list is returned. -/
theorem C3_unrepresentable_path_aborts (rd : ra_flycheck.Diagnostic) (workspace_root : String)
    (span : DiagnosticSpan) (e : String)
    (hmem : span ∈ rd.spans) (hprim : span.is_primary = true)
    (hfail : map_span_to_location span workspace_root = .error e) :
    translation_fails rd workspace_root := by
  have hmemf : span ∈ rd.spans.filter (fun s => s.is_primary) :=
    List.mem_filter.mpr ⟨hmem, hprim⟩
  have hne : (rd.spans.filter (fun s => s.is_primary)).isEmpty = false := by
    rcases hf : rd.spans.filter (fun s => s.is_primary) with _ | ⟨a, l⟩
    · rw [hf] at hmemf
      cases hmemf
    · rw [hf]
      rfl
  rw [translation_fails]
  cases hcall : map_rust_diagnostic_to_lsp rd workspace_root with
  | error err => exact ⟨err, rfl⟩
  | ok res =>
    exfalso
    obtain ⟨rel, fixes, message, needs, hemit⟩ := map_lsp_ok_destruct hcall hne
    exact emit_no_ok_of_failing_span hmemf hfail res hemit

/-- The primary span of the C3 witness: a relative file under a relative
workspace root, whose joined path cannot become a file URL. -/
def spC3w : DiagnosticSpan :=
  .mk "bad.rs" 1 1 1 2 true none none none none

/-- The diagnostic of the C3 witness. -/
def rdC3w : ra_flycheck.Diagnostic :=
  .mk "mismatched types" none .Error [spC3w] [] none

theorem C3_unrepresentable_path_aborts_witness :
    spC3w ∈ rdC3w.spans ∧ spC3w.is_primary = true ∧
    map_span_to_location spC3w "rel" = .error "cannot convert path to url: rel/bad.rs" ∧
    translation_fails rdC3w "rel" :=
  ⟨List.mem_singleton.mpr rfl, rfl, rfl,
    C3_unrepresentable_path_aborts rdC3w "rel" spC3w "cannot convert path to url: rel/bad.rs"
      (List.mem_singleton.mpr rfl) rfl rfl⟩

/-- The walk of a macro expansion chain descends to a final span f: at a
call-site span with a synthetic file name the walk continues through that
span's own expansion (step); at a call-site span with a real file name the
walk either stops there when the span has no expansion of its own (last), or
restarts inside that span's expansion (through), mirroring the recursive
call back into the top-level resolution. -/
inductive ChainEndsAt : DiagnosticSpanMacroExpansion → DiagnosticSpan → Prop where
  | last (e : DiagnosticSpanMacroExpansion)
      (hreal : is_from_macro_file e.span.file_name = false)
      (hnoexp : e.span.expansion = none) : ChainEndsAt e e.span
  | step (e e' : DiagnosticSpanMacroExpansion) (f : DiagnosticSpan)
      (hsyn : is_from_macro_file e.span.file_name = true)
      (hexp : e.span.expansion = some e')
      (h : ChainEndsAt e' f) : ChainEndsAt e f
  | through (e e' : DiagnosticSpanMacroExpansion) (f : DiagnosticSpan)
      (hreal : is_from_macro_file e.span.file_name = false)
      (hexp : e.span.expansion = some e')
      (h : ChainEndsAt e' f) : ChainEndsAt e f

theorem chain_end_not_synthetic {e : DiagnosticSpanMacroExpansion} {f : DiagnosticSpan}
    (h : ChainEndsAt e f) : is_from_macro_file f.file_name = false := by
  induction h with
  | last e hreal hnoexp => exact hreal
  | step e e' f hsyn hexp h ih => exact ih
  | through e e' f hreal hexp h ih => exact ih

theorem chain_resolves {e : DiagnosticSpanMacroExpansion} {f : DiagnosticSpan}
    (h : ChainEndsAt e f) (workspace_root : String) :
    map_macro_span_to_location e workspace_root =
      (map_span_to_location_naive f workspace_root).map some := by
  induction h with
  | last e hreal hnoexp =>
    obtain ⟨sp, mdn, dss⟩ := e
    obtain ⟨fn, ls, le, cs, ce, ip, lab, sr, sa, exp⟩ := sp
    simp only [DiagnosticSpanMacroExpansion.span, DiagnosticSpan.file_name,
      DiagnosticSpan.expansion] at hreal hnoexp
    subst hnoexp
    simp only [map_macro_span_to_location, hreal, Bool.false_eq_true, not_false_iff, if_true,
      map_span_to_location, DiagnosticSpanMacroExpansion.span]
    cases map_span_to_location_naive (.mk fn ls le cs ce ip lab sr sa none) workspace_root <;> rfl
  | step e e' f hsyn hexp h ih =>
    obtain ⟨sp, mdn, dss⟩ := e
    obtain ⟨fn, ls, le, cs, ce, ip, lab, sr, sa, exp⟩ := sp
    simp only [DiagnosticSpanMacroExpansion.span, DiagnosticSpan.file_name,
      DiagnosticSpan.expansion] at hsyn hexp
    subst hexp
    simp only [map_macro_span_to_location, hsyn, not_true, if_false]
    exact ih
  | through e e' f hreal hexp h ih =>
    obtain ⟨sp, mdn, dss⟩ := e
    obtain ⟨fn, ls, le, cs, ce, ip, lab, sr, sa, exp⟩ := sp
    simp only [DiagnosticSpanMacroExpansion.span, DiagnosticSpan.file_name,
      DiagnosticSpan.expansion] at hreal hexp
    subst hexp
    simp only [map_macro_span_to_location, hreal, Bool.false_eq_true, not_false_iff, if_true,
      map_span_to_location]
    rw [ih]
    cases map_span_to_location_naive f workspace_root <;> rfl

/-- The resolution behavior of a span: no expansion info falls back to the
naive location; an expansion whose walk is exhausted (returns no location)
falls back to the naive location; an expansion whose chain-walk descends to
a final span f resolves to the naive location of f, and f is never a
synthetic macro frame. -/
def span_resolution_spec (span : DiagnosticSpan) (workspace_root : String) : Prop :=
  (span.expansion = none →
    map_span_to_location span workspace_root =
      map_span_to_location_naive span workspace_root) ∧
  (∀ e, span.expansion = some e →
    map_macro_span_to_location e workspace_root = .ok none →
    map_span_to_location span workspace_root =
      map_span_to_location_naive span workspace_root) ∧
  (∀ e f, span.expansion = some e → ChainEndsAt e f →
    map_span_to_location span workspace_root = map_span_to_location_naive f workspace_root ∧
    is_from_macro_file f.file_name = false)

/-- C5 amended: resolution of a span with expansion info walks the chain of
call-site spans, but at the first call-site span with a non-synthetic file
name it recurses into that span's own expansion when present, so it returns
the location of the final span of the walk (never a synthetic frame) rather
than stopping at the first non-synthetic call site; an exhausted walk and a
span without expansion info fall back to the span's own naive location. -/
theorem C5_macro_chain_resolution (span : DiagnosticSpan) (workspace_root : String) :
    span_resolution_spec span workspace_root := by
  obtain ⟨fn, ls, le, cs, ce, ip, lab, sr, sa, exp⟩ := span
  refine ⟨?_, ?_, ?_⟩
  · intro hexp
    simp only [DiagnosticSpan.expansion] at hexp
    subst hexp
    simp only [map_span_to_location]
  · intro e hexp hnone
    simp only [DiagnosticSpan.expansion] at hexp
    subst hexp
    simp only [map_span_to_location, hnone]
  · intro e f hexp hchain
    simp only [DiagnosticSpan.expansion] at hexp
    subst hexp
    refine ⟨?_, chain_end_not_synthetic hchain⟩
    simp only [map_span_to_location, chain_resolves hchain workspace_root]
    cases map_span_to_location_naive f workspace_root <;> rfl

/-- The final real-file span of the C5 chain. -/
def s2C5 : DiagnosticSpan := .mk "b.rs" 2 2 1 2 false none none none none

/-- The inner expansion record of the C5 chain, whose call site is s2C5. -/
def e2C5 : DiagnosticSpanMacroExpansion := .mk s2C5 "inner_m" s2C5

/-- The first call-site span of the C5 chain: a non-synthetic file that
itself still carries expansion info. -/
def s1C5 : DiagnosticSpan := .mk "a.rs" 1 1 1 2 false none none none (some e2C5)

/-- The outer expansion record of the C5 chain, whose call site is s1C5. -/
def e1C5 : DiagnosticSpanMacroExpansion := .mk s1C5 "outer_m" s1C5

/-- The diagnosed span of the C5 counterexample: a synthetic macro frame
expanded from the chain above. -/
def s0C5 : DiagnosticSpan := .mk "<m>" 7 7 1 2 true none none none (some e1C5)

/-- C5 counterexample: the first call-site span of the chain of s0C5 is
s1C5, whose file a.rs is not a synthetic macro frame, so the claim says
resolution returns the location of s1C5; the code instead recurses into the
expansion of s1C5 and returns the location of b.rs. -/
theorem C5_counterexample :
    s0C5.expansion = some e1C5 ∧
    e1C5.span = s1C5 ∧
    is_from_macro_file s1C5.file_name = false ∧
    (map_span_to_location s0C5 "/t").toOption.map (fun l => l.uri) = some "file:///t/b.rs" ∧
    (map_span_to_location_naive s1C5 "/t").toOption.map (fun l => l.uri) = some "file:///t/a.rs" ∧
    ("file:///t/b.rs" : String) ≠ "file:///t/a.rs" :=
  ⟨rfl, rfl, rfl, rfl, rfl, by decide⟩

theorem C5_macro_chain_resolution_witness :
    span_resolution_spec s0C5 "/t" ∧
    ChainEndsAt e1C5 s2C5 ∧
    map_span_to_location s0C5 "/t" = map_span_to_location_naive s2C5 "/t" ∧
    is_from_macro_file s2C5.file_name = false :=
  have hchain : ChainEndsAt e1C5 s2C5 :=
    .through e1C5 e2C5 s2C5 rfl rfl (.last e2C5 rfl rfl)
  ⟨C5_macro_chain_resolution s0C5 "/t", hchain,
    ((C5_macro_chain_resolution s0C5 "/t").2.2 e1C5 s2C5 rfl hchain).1,
    ((C5_macro_chain_resolution s0C5 "/t").2.2 e1C5 s2C5 rfl hchain).2⟩

/-- A span qualifies for a quick fix when it carries both a MachineApplicable
applicability and a non-absent suggested replacement. -/
def qualifying (span : DiagnosticSpan) : Bool :=
  match span.suggestion_applicability, span.suggested_replacement with
  | some .MachineApplicable, some _ => true
  | _, _ => false

/-- The file URL and text replacement contributed by a qualifying span whose
location resolves (none for a non-qualifying span or a failing resolution). -/
def qualifying_edit (span : DiagnosticSpan) (workspace_root : String) :
    Option (lsp_types.Url × lsp_types.TextEdit) :=
  match span.suggestion_applicability, span.suggested_replacement with
  | some .MachineApplicable, some suggested_replacement =>
    match map_span_to_location span workspace_root with
    | .ok location =>
      some (location.uri, { range := location.range, newText := suggested_replacement })
    | .error _ => none
  | _, _ => none

theorem assoc_edits_insert (edit_map : List (lsp_types.Url × List lsp_types.TextEdit))
    (uri : lsp_types.Url) (edit : lsp_types.TextEdit) (v : lsp_types.Url) :
    assoc_edits (insert_edit edit_map uri edit) v =
      if v = uri then assoc_edits edit_map v ++ [edit] else assoc_edits edit_map v := by
  induction edit_map with
  | nil =>
    simp only [insert_edit, assoc_edits]
    by_cases hv : uri = v
    · rw [if_pos hv, if_pos hv.symm]
      rfl
    · rw [if_neg hv, if_neg (fun h => hv h.symm)]
  | cons p rest ih =>
    obtain ⟨k, es⟩ := p
    by_cases hk : k = uri
    · subst hk
      simp only [insert_edit, if_pos rfl, assoc_edits]
      by_cases hv : k = v
      · rw [if_pos hv, if_pos hv.symm, if_pos hv]
      · rw [if_neg hv, if_neg (fun h => hv h.symm), if_neg hv]
    · simp only [insert_edit, if_neg hk, assoc_edits]
      by_cases hv : k = v
      · subst hv
        rw [if_pos rfl, if_neg hk, if_pos rfl]
      · rw [if_neg hv, if_neg hv, ih]

theorem qualifying_edit_eq (t : DiagnosticSpan) (workspace_root : String) :
    qualifying_edit t workspace_root =
      if qualifying t then
        match map_span_to_location t workspace_root with
        | .ok location =>
          some (location.uri,
            { range := location.range, newText := t.suggested_replacement.getD "" })
        | .error _ => none
      else none := by
  obtain ⟨fn, ls, le, cs, ce, ip, lab, sr, sa, exp⟩ := t
  rcases sa with _ | app
  · simp [qualifying, qualifying_edit, DiagnosticSpan.suggestion_applicability]
  · rcases app <;> rcases sr with _ | r <;>
      simp [qualifying, qualifying_edit, DiagnosticSpan.suggestion_applicability,
        DiagnosticSpan.suggested_replacement]

theorem collect_edits_cons (t : DiagnosticSpan) (rest : List DiagnosticSpan)
    (workspace_root : String) (em : List (lsp_types.Url × List lsp_types.TextEdit)) :
    collect_edits (t :: rest) workspace_root em =
      if qualifying t then
        match map_span_to_location t workspace_root with
        | .error e => .error e
        | .ok location =>
          collect_edits rest workspace_root (insert_edit em location.uri
            { range := location.range, newText := t.suggested_replacement.getD "" })
      else collect_edits rest workspace_root em := by
  obtain ⟨fn, ls, le, cs, ce, ip, lab, sr, sa, exp⟩ := t
  rcases sa with _ | app
  · simp [collect_edits, qualifying, DiagnosticSpan.suggestion_applicability]
  · rcases app <;> rcases sr with _ | r <;>
      simp [collect_edits, qualifying, DiagnosticSpan.suggestion_applicability,
        DiagnosticSpan.suggested_replacement]

theorem collect_edits_lookup {spans : List DiagnosticSpan} {workspace_root : String}
    {em em' : List (lsp_types.Url × List lsp_types.TextEdit)}
    (h : collect_edits spans workspace_root em = .ok em') (u : lsp_types.Url) :
    assoc_edits em' u = assoc_edits em u ++
      ((spans.filterMap (fun s => qualifying_edit s workspace_root)).filter
        (fun p => p.1 = u)).map (fun p => p.2) := by
  induction spans generalizing em with
  | nil =>
    simp only [collect_edits, Except.ok.injEq] at h
    subst h
    simp
  | cons t rest ih =>
    rw [collect_edits_cons] at h
    by_cases hq : qualifying t
    · rw [if_pos hq] at h
      cases hloc : map_span_to_location t workspace_root with
      | error e =>
        rw [hloc] at h
        exact Except.noConfusion h
      | ok loc =>
        rw [hloc] at h
        dsimp only at h
        rw [List.filterMap_cons, qualifying_edit_eq, if_pos hq, hloc]
        dsimp only
        rw [ih h, assoc_edits_insert]
        simp only [List.filter_cons]
        by_cases hu : u = loc.uri
        · rw [if_pos hu]
          have hc : (decide ((loc.uri,
              ({ range := loc.range, newText := t.suggested_replacement.getD "" } :
                lsp_types.TextEdit)).1 = u)) = true := by
            subst hu
            simp
          rw [hc]
          simp [List.append_assoc]
        · rw [if_neg hu]
          have hc : (decide ((loc.uri,
              ({ range := loc.range, newText := t.suggested_replacement.getD "" } :
                lsp_types.TextEdit)).1 = u)) = false := by
            simp only [decide_eq_false_iff_not]
            exact fun hh => hu hh.symm
          rw [hc]
          simp
    · rw [if_neg hq] at h
      rw [List.filterMap_cons, qualifying_edit_eq, if_neg hq]
      rw [ih h]

theorem collect_edits_of_no_qualifying {spans : List DiagnosticSpan} {workspace_root : String}
    {em : List (lsp_types.Url × List lsp_types.TextEdit)}
    (h : ∀ s ∈ spans, qualifying s = false) :
    collect_edits spans workspace_root em = .ok em := by
  induction spans generalizing em with
  | nil => rfl
  | cons t rest ih =>
    rw [collect_edits_cons, if_neg (by simp [h t (List.mem_cons_self t rest)])]
    exact ih (fun s hs => h s (List.mem_cons_of_mem t hs))

theorem collect_edits_resolves {spans : List DiagnosticSpan} {workspace_root : String}
    {em em' : List (lsp_types.Url × List lsp_types.TextEdit)}
    (h : collect_edits spans workspace_root em = .ok em') :
    ∀ s ∈ spans, qualifying s = true →
      ∃ loc, map_span_to_location s workspace_root = .ok loc := by
  induction spans generalizing em with
  | nil =>
    intro s hs
    cases hs
  | cons t rest ih =>
    intro s hs hq
    rw [collect_edits_cons] at h
    by_cases hqt : qualifying t
    · rw [if_pos hqt] at h
      cases hloc : map_span_to_location t workspace_root with
      | error e =>
        rw [hloc] at h
        exact Except.noConfusion h
      | ok loc =>
        rw [hloc] at h
        dsimp only at h
        rcases List.mem_cons.mp hs with rfl | hs'
        · exact ⟨loc, hloc⟩
        · exact ih h s hs' hq
    · rw [if_neg hqt] at h
      rcases List.mem_cons.mp hs with rfl | hs'
      · exact absurd hq hqt
      · exact ih h s hs' hq

theorem collect_edits_nonempty {spans : List DiagnosticSpan} {workspace_root : String}
    {em' : List (lsp_types.Url × List lsp_types.TextEdit)} {s : DiagnosticSpan}
    (h : collect_edits spans workspace_root [] = .ok em')
    (hs : s ∈ spans) (hq : qualifying s = true) : em'.isEmpty = false := by
  obtain ⟨loc, hloc⟩ := collect_edits_resolves h s hs hq
  have hqe : qualifying_edit s workspace_root =
      some (loc.uri, { range := loc.range, newText := s.suggested_replacement.getD "" }) := by
    rw [qualifying_edit_eq, if_pos hq, hloc]
  have hlookup := collect_edits_lookup h loc.uri
  have hmem : (loc.uri,
      ({ range := loc.range, newText := s.suggested_replacement.getD "" } : lsp_types.TextEdit)) ∈
      spans.filterMap (fun x => qualifying_edit x workspace_root) :=
    List.mem_filterMap.mpr ⟨s, hs, hqe⟩
  have hmem2 : (loc.uri,
      ({ range := loc.range, newText := s.suggested_replacement.getD "" } : lsp_types.TextEdit)) ∈
      (spans.filterMap (fun x => qualifying_edit x workspace_root)).filter
        (fun p => p.1 = loc.uri) :=
    List.mem_filter.mpr ⟨hmem, by simp⟩
  have hmem3 : ({ range := loc.range, newText := s.suggested_replacement.getD "" } :
      lsp_types.TextEdit) ∈
      ((spans.filterMap (fun x => qualifying_edit x workspace_root)).filter
        (fun p => p.1 = loc.uri)).map (fun p => p.2) :=
    List.mem_map.mpr ⟨_, hmem2, rfl⟩
  cases hem : em' with
  | nil =>
    rw [hem] at hlookup
    have : assoc_edits ([] : List (lsp_types.Url × List lsp_types.TextEdit)) loc.uri = [] := rfl
    rw [this] at hlookup
    simp only [List.nil_append] at hlookup
    rw [← hlookup] at hmem3
    cases hmem3
  | cons p rest => rfl

/-- The three-way classification of a child diagnostic: no primary span
yields a MessageLine carrying the child's message (which the aggregator
appends as a new line to the parent message while clearing the
label-suppression flag); otherwise, if every primary span fails to qualify
for a fix, the outcome is Related at the resolved location of the first
primary span; and if some primary span qualifies (MachineApplicable with a
non-absent replacement), the outcome is a single quick-fix code action
titled with the child's message whose edit groups, under each resolved file
URL, the replacements of the qualifying spans in span encounter order. -/
def child_classification_spec (rd : ra_flycheck.Diagnostic) (workspace_root : String)
    (out : MappedRustChildDiagnostic) : Prop :=
  (rd.spans.filter (fun s => s.is_primary) = [] →
    out = .MessageLine rd.message ∧
    (∀ rest rel fixes message needs_primary_span_label,
      process_children (rd :: rest) workspace_root
          (rel, fixes, message, needs_primary_span_label) =
        process_children rest workspace_root
          (rel, fixes, message ++ "\n" ++ rd.message, false))) ∧
  (∀ span0 rest_spans, rd.spans.filter (fun s => s.is_primary) = span0 :: rest_spans →
    ((∀ s ∈ rd.spans.filter (fun s => s.is_primary), qualifying s = false) →
      ∃ location, map_span_to_location span0 workspace_root = .ok location ∧
        out = .Related { location, message := rd.message }) ∧
    (∀ s ∈ rd.spans.filter (fun s => s.is_primary), qualifying s = true →
      ∃ edit_map, out = .SuggestedFix
          { title := rd.message
            id := none
            group := none
            kind := some "quickfix"
            edit := some { changes := some edit_map, document_changes := none }
            command := none } ∧
        ∀ u, assoc_edits edit_map u =
          (((rd.spans.filter (fun s => s.is_primary)).filterMap
              (fun s => qualifying_edit s workspace_root)).filter
            (fun p => p.1 = u)).map (fun p => p.2)))

/-- C4: every successfully classified child diagnostic falls into exactly
one of the three outcomes of child_classification_spec, decided first by the
absence of primary spans and then by the presence of a qualifying
(MachineApplicable, non-absent replacement) primary span. -/
theorem C4_child_classification (rd : ra_flycheck.Diagnostic) (workspace_root : String)
    (out : MappedRustChildDiagnostic)
    (hok : map_rust_child_diagnostic rd workspace_root = .ok out) :
    child_classification_spec rd workspace_root out := by
  constructor
  · intro hf
    have hcm : map_rust_child_diagnostic rd workspace_root = .ok (.MessageLine rd.message) := by
      rw [map_rust_child_diagnostic, hf]
    constructor
    · rw [hcm] at hok
      exact (Except.ok.injEq _ _ ▸ hok).symm
    · intro rest rel fixes message needs_primary_span_label
      rw [process_children]
      rw [hcm]
  · intro span0 rest_spans hf
    rw [map_rust_child_diagnostic, hf] at hok
    dsimp only at hok
    constructor
    · intro hnoq
      rw [hf] at hnoq
      have hcoll : collect_edits (span0 :: rest_spans) workspace_root [] = .ok [] :=
        collect_edits_of_no_qualifying hnoq
      rw [hcoll] at hok
      dsimp only at hok
      cases hloc : map_span_to_location span0 workspace_root with
      | error e =>
        rw [hloc] at hok
        exact Except.noConfusion hok
      | ok location =>
        rw [hloc] at hok
        injection hok with hout
        exact ⟨location, rfl, hout.symm⟩
    · intro s hs hq
      rw [hf] at hs
      cases hcoll : collect_edits (span0 :: rest_spans) workspace_root [] with
      | error e =>
        rw [hcoll] at hok
        exact Except.noConfusion hok
      | ok edit_map =>
        rw [hcoll] at hok
        dsimp only at hok
        have hne : edit_map.isEmpty = false := collect_edits_nonempty hcoll hs hq
        rw [hne] at hok
        simp only [Bool.false_eq_true, if_false] at hok
        injection hok with hout
        refine ⟨edit_map, hout.symm, fun u => ?_⟩
        have := collect_edits_lookup hcoll u
        rw [hf]
        simpa using this

/-- The child diagnostic of the C4 witness: the machine-applicable
underscore-prefix suggestion of the unused-variable fixture. -/
def rdC4w : ra_flycheck.Diagnostic :=
  .mk "consider prefixing with an underscore" none .Help
    [.mk "driver/subcommand/repl.rs" 291 291 9 12 true none (some "_foo")
      (some .MachineApplicable) none] [] none

/-- The classification of the C4 witness: a single quick-fix code action. -/
def outC4w : MappedRustChildDiagnostic :=
  .SuggestedFix
    { title := "consider prefixing with an underscore"
      id := none
      group := none
      kind := some "quickfix"
      edit := some
        { changes := some [("file:///test/driver/subcommand/repl.rs",
            [{ range := { start := { line := 290, character := 8 },
                          endPos := { line := 290, character := 11 } },
               newText := "_foo" }])]
          document_changes := none }
      command := none }

theorem C4_child_classification_witness :
    map_rust_child_diagnostic rdC4w "/test" = .ok outC4w ∧
    child_classification_spec rdC4w "/test" outC4w :=
  ⟨rfl, C4_child_classification rdC4w "/test" outC4w rfl⟩
